import Mathlib

/-!
Shallow embedding of the job-tracking and streaming-consumption engine of the
Medical_chatbot frontend.

Embedded source functions:
* `defaultBackoff` — frontend/src/api.js, the retry-delay policy
  (exponential envelope clamped to `cap`, then symmetric jitter, floored at 50 ms).
* `pollUploadStatus` — frontend/src/api.js, the Single-Job Poller: a bounded
  status-polling loop with tolerance for consecutive 404 ("not found") results.
* `pollAll` — frontend/src/hooks/useMultiUpload.js, one tick of the Multi-Job
  Manager's shared polling loop.
* `useMultiUpload` initialisation — load-or-empty of the persisted Job Collection.
* `ask` — frontend/src/hooks/useAskStream.js, the Stream Consumer's per-event
  state transition (answer accumulation, dedup guard, terminal events).

Machine numbers are modelled as `ℚ` (JS numbers behave exactly on the small
integer ranges involved); `Math.round x` is `⌊x + 1/2⌋`; JS string falsiness
(`s || t`) is the emptiness test; fallible operations return `Option`.
-/

namespace MedChat

/-! ## Backoff Policy (`defaultBackoff` in api.js) -/

/-- JS `Math.round`: round half toward positive infinity. -/
def jsRound (x : ℚ) : ℤ := ⌊x + 1 / 2⌋

/-- The pre-jitter envelope of `defaultBackoff`:
`Math.min(cap, Math.round(base * Math.pow(1.8, attempt)))`. -/
def preJitterDelay (attempt : ℕ) (base cap : ℚ) : ℚ :=
  min cap ((jsRound (base * (9 / 5) ^ attempt) : ℤ) : ℚ)

/-- `defaultBackoff(attempt, base, cap)` from api.js, with the value of
`Math.random()` (in `[0,1)`) passed explicitly as `rand`:
`exp = min(cap, round(base * 1.8^attempt)); jitter = (rand*0.4 - 0.2) * exp;
return max(50, round(exp + jitter))`. -/
def defaultBackoff (attempt : ℕ) (base cap rand : ℚ) : ℚ :=
  let e := preJitterDelay attempt base cap
  let jitter := (rand * (2 / 5) - 1 / 5) * e
  max 50 ((jsRound (e + jitter) : ℤ) : ℚ)

/-! ## Stream Consumer (`ask` in useAskStream.js)

Events already parsed from the newline-delimited JSON protocol. A field that
may be absent on the wire (`obj.text`, `obj.sources`) is an `Option`. -/

/-- JS `s.endsWith(p)`: `p` is a suffix of `s` (kernel-computable model over
the character list of the string). -/
def jsEndsWith (s p : String) : Bool :=
  p.data.length ≤ s.data.length && s.data.drop (s.data.length - p.data.length) == p.data

/-- JS `s.trim()`: strip leading and trailing whitespace. -/
def jsTrim (s : String) : String :=
  ⟨((s.data.dropWhile Char.isWhitespace).reverse.dropWhile Char.isWhitespace).reverse⟩

inductive StreamEvent where
  /-- `{"type":"sources","sources":[...]}`; the list may be absent (`obj.sources || []`). -/
  | sources (srcs : Option (List String))
  /-- `{"type":"partial","text":"..."}`; `text` may be absent (`obj.text || ""`). -/
  | chunk (text : Option String)
  /-- `{"type":"done","text"?,"sources"?}`. -/
  | done (text : Option String) (srcs : Option (List String))
  /-- `{"type":"error","message"}`. -/
  | errorEvent (message : String)
  /-- an unparsable or unrecognized line: skipped. -/
  | malformed
deriving DecidableEq, Repr

/-- The mutable state of one stream session in `ask`: the `accumulated`
buffer, the user-visible `answer` (React state), the source list, and whether
a terminal event has ended the session (the early `return` in the loop). -/
structure StreamState where
  accumulated : String
  answer : String
  sources : List String
  finished : Bool
deriving DecidableEq, Repr

/-- State at the top of `ask`: fresh buffer, previous answer kept
(the code deliberately does not clear it), sources reset. -/
def initStream (prevAnswer : String) : StreamState :=
  { accumulated := "", answer := prevAnswer, sources := [], finished := false }

/-- One iteration of the event dispatch in `ask`'s read loop. -/
def applyEvent (st : StreamState) (e : StreamEvent) : StreamState :=
  match e with
  | .sources srcs => { st with sources := srcs.getD [] }
  | .chunk text =>
      let c := text.getD ""
      if c ≠ "" ∧ jsEndsWith st.accumulated c = false then
        { st with accumulated := st.accumulated ++ c, answer := st.accumulated ++ c }
      else st
  | .done text srcs =>
      let finalText := match text with
        | some t => if jsTrim t ≠ "" then jsTrim t else st.accumulated
        | none => st.accumulated
      { st with answer := finalText, sources := srcs.getD st.sources, finished := true }
  | .errorEvent msg =>
      { st with answer := "Error: " ++ msg, finished := true }
  | .malformed => st

/-- The event loop of `ask`: consume events in order until a terminal event
(`done`/`error`) returns from the function; later events are not processed. -/
def runStream (st : StreamState) : List StreamEvent → StreamState
  | [] => st
  | e :: es => if st.finished then st else runStream (applyEvent st e) es

/-! ## Single-Job Poller (`pollUploadStatus` in api.js)

`fetchUploadStatusRaw(jobId)` has three distinguishable outcomes: a parsed job
object, `null` on HTTP 404, or a thrown error (transport failure or non-2xx).
The per-attempt outcome is supplied by an oracle `fetch : ℕ → FetchOutcome`
indexed by the attempt counter. -/

/-- A job object as returned by the status endpoint (only the `status` field
is inspected by the poller; `progress` stands for the remaining payload). -/
structure UploadJob where
  status : String
  progress : ℕ
deriving DecidableEq, Repr

/-- Outcome of one `fetchUploadStatusRaw` call. -/
inductive FetchOutcome where
  /-- a 2xx response with a parsed job object. -/
  | found (job : UploadJob)
  /-- HTTP 404: `fetchUploadStatusRaw` returns `null`. -/
  | notFound
  /-- the fetch threw (network failure or non-2xx body): caught by the
  `try/catch` in the loop. -/
  | transportError
deriving DecidableEq, Repr

/-- The terminal statuses `["completed", "error", "canceled"]`. -/
def isTerminal (s : String) : Bool :=
  s == "completed" || s == "error" || s == "canceled"

/-- The default `stopWhen` option:
`(job) => job && ["completed","error","canceled"].includes(job.status)`. -/
def defaultStopWhen (j : Option UploadJob) : Bool :=
  match j with
  | some job => isTerminal job.status
  | none => false

/-- What one `pollUploadStatus` run produced: the returned value, the final
Resume Pointer (the `last_upload_job_id` local-storage key), the arguments of
the `onUpdate` calls in order, and how many attempts ran. -/
structure PollResult where
  result : Option UploadJob
  resume : Option String
  updates : List (Option UploadJob)
  attemptsUsed : ℕ
deriving DecidableEq, Repr

/-- The `while (attempt < maxAttempts)` loop of `pollUploadStatus`, with the
remaining attempt budget `fuel = maxAttempts - attempt` made structural.
State: current `attempt`, the `notFound` counter, the `last` observed value,
the Resume Pointer, and the `onUpdate` trace. On `found`/`notFound` the
response is recorded as an update (the `onUpdate(job)` call) before
`stopWhen` is evaluated; a thrown fetch is caught and changes nothing except
consuming the attempt. On a stop, the pointer is removed (unconditionally)
exactly when the stopping value is a terminal job. -/
def pollGoAux (fetch : ℕ → FetchOutcome) (stopWhen : Option UploadJob → Bool)
    (allow404Retries : ℕ) :
    ℕ → ℕ → ℕ → Option UploadJob → Option String → List (Option UploadJob) → PollResult
  | 0, attempt, _, last, resume, updates =>
      { result := last, resume := resume, updates := updates, attemptsUsed := attempt }
  | fuel + 1, attempt, notFoundCount, last, resume, updates =>
      match fetch attempt with
      | .transportError =>
          pollGoAux fetch stopWhen allow404Retries fuel (attempt + 1) notFoundCount last
            resume updates
      | .notFound =>
          let updates := updates ++ [none]
          if stopWhen none then
            { result := none, resume := resume, updates := updates, attemptsUsed := attempt + 1 }
          else if notFoundCount + 1 > allow404Retries then
            { result := none, resume := resume, updates := updates, attemptsUsed := attempt + 1 }
          else
            pollGoAux fetch stopWhen allow404Retries fuel (attempt + 1) (notFoundCount + 1) none
              resume updates
      | .found job =>
          let updates := updates ++ [some job]
          if stopWhen (some job) then
            { result := some job
              resume := if isTerminal job.status then none else resume
              updates := updates
              attemptsUsed := attempt + 1 }
          else
            pollGoAux fetch stopWhen allow404Retries fuel (attempt + 1) 0 (some job)
              resume updates

/-- `pollUploadStatus(jobId, {maxAttempts, allow404Retries})` with the default
`stopWhen`. `jobId` is used by the code only to address the status endpoint,
which the oracle `fetch` abstracts; `resume0` is the prior content of the
persisted Resume Pointer. -/
def pollUploadStatus (jobId : String) (fetch : ℕ → FetchOutcome)
    (maxAttempts allow404Retries : ℕ) (resume0 : Option String) : PollResult :=
  let _ := jobId
  pollGoAux fetch defaultStopWhen allow404Retries maxAttempts 0 0 none resume0 []

/-- Number of `notFound` outcomes among attempts `start, …, start + n - 1`. -/
def count404 (fetch : ℕ → FetchOutcome) (start : ℕ) : ℕ → ℕ
  | 0 => 0
  | n + 1 =>
      (if fetch start = .notFound then 1 else 0) + count404 fetch (start + 1) n

/-- The `onUpdate` arguments produced by attempts `start, …, start + n - 1`:
every attempt with a server response contributes its value (a 404 contributes
`none`), a thrown fetch contributes nothing. -/
def updateTrace (fetch : ℕ → FetchOutcome) (start : ℕ) : ℕ → List (Option UploadJob)
  | 0 => []
  | n + 1 =>
      (match fetch start with
        | .found job => [some job]
        | .notFound => [none]
        | .transportError => []) ++ updateTrace fetch (start + 1) n

/-! ## Multi-Job Manager (`useMultiUpload` in useMultiUpload.js)

One tick of the shared polling loop `pollAll`. The Job Collection is an
association list (JS object: unique keys, insertion order); `getUploadStatus`
outcomes per job are supplied by a `server` oracle. -/

/-- One entry of the Job Collection (the fields written by `addSingleFile`
and updated by `pollAll`). -/
structure MJRecord where
  fileName : String
  size_bytes : ℕ
  progress : ℕ
  detail : String
  status : String
deriving DecidableEq, Repr

/-- A status response body; absent fields are `none`. -/
structure StatusResp where
  status : Option String := none
  progress : Option ℕ := none
  detail : Option String := none
  filename : Option String := none
  size_bytes : Option ℕ := none
deriving DecidableEq, Repr

/-- Outcome of one `getUploadStatus(jobId)` call inside `pollAll`'s loop. -/
inductive StatusOutcome where
  /-- a 2xx response with a parsed body. -/
  | ok (resp : StatusResp)
  /-- the fetch threw with `err.code === 404`. -/
  | http404
  /-- the fetch threw a well-formed HTTP error (`err.code` set, not 404). -/
  | httpError
  /-- the fetch threw a transport-level error (`TypeError` / no `err.code`). -/
  | networkError
deriving DecidableEq, Repr

/-- `next[jobId] = { ...job, ...status, fileName: status.filename || job.fileName,
size_bytes: status.size_bytes ?? job.size_bytes ?? 0 }`: response fields
override the record, with `||`-fallback for the name and `??`-fallback for
the size. -/
def mergeStatus (job : MJRecord) (resp : StatusResp) : MJRecord :=
  { status := resp.status.getD job.status
    progress := resp.progress.getD job.progress
    detail := resp.detail.getD job.detail
    fileName := match resp.filename with
      | some f => if f ≠ "" then f else job.fileName
      | none => job.fileName
    size_bytes := resp.size_bytes.getD job.size_bytes }

/-- `(status.status || "").toLowerCase()` lands in the terminal list. -/
def respIsTerminal (resp : StatusResp) : Bool :=
  isTerminal (resp.status.getD "").toLower

/-- Replace the value stored under `jobId` (the key is present: `next` starts
as a copy of the entries being iterated). -/
def setJob (next : List (String × MJRecord)) (jobId : String) (r : MJRecord) :
    List (String × MJRecord) :=
  next.map (fun p => if p.1 = jobId then (jobId, r) else p)

/-- `delete next[jobId]`. -/
def removeJob (next : List (String × MJRecord)) (jobId : String) :
    List (String × MJRecord) :=
  next.filter (fun p => p.1 ≠ jobId)

/-- The `for (const [jobId, job] of entries)` loop of `pollAll`. Arguments:
remaining entries, the mutable copy `next`, the Resume Pointer, the ids
fetched so far (each iteration issues one `getUploadStatus`), and the
`sawNetworkError` flag. An `ok` response overwrites the record and clears the
pointer when the wire status is terminal and the pointer matches; a 404
removes the job and clears a matching pointer; an HTTP error is only logged;
a network error sets the flag. -/
def pollAllEntries (server : String → StatusOutcome) :
    List (String × MJRecord) → List (String × MJRecord) → Option String →
    List String → Bool →
    List (String × MJRecord) × Option String × List String × Bool
  | [], next, resume, fetched, sawNet => (next, resume, fetched, sawNet)
  | (jobId, job) :: rest, next, resume, fetched, sawNet =>
      let fetched := fetched ++ [jobId]
      match server jobId with
      | .ok resp =>
          let next := setJob next jobId (mergeStatus job resp)
          let resume :=
            if respIsTerminal resp ∧ resume = some jobId then none else resume
          pollAllEntries server rest next resume fetched sawNet
      | .http404 =>
          let next := removeJob next jobId
          let resume := if resume = some jobId then none else resume
          pollAllEntries server rest next resume fetched sawNet
      | .httpError => pollAllEntries server rest next resume fetched sawNet
      | .networkError => pollAllEntries server rest next resume fetched true

/-- The shared-loop state carried in `pollStateRef`. -/
structure PollAllState where
  busy : Bool
  paused : Bool
  networkFailCount : ℕ
deriving DecidableEq, Repr

/-- Everything one `pollAll()` invocation did: the persisted collection, the
Resume Pointer, the job ids whose status was requested (in order), whether a
transport failure was seen, and the loop state when the call returns (for the
outage branch: `paused := true`, counter incremented; otherwise the counter
resets). -/
structure TickResult where
  jobs : List (String × MJRecord)
  resume : Option String
  fetched : List String
  sawNetworkError : Bool
  state : PollAllState
deriving DecidableEq, Repr

/-- One invocation of `pollAll`: return immediately when `busy || paused` or
when the collection is empty; otherwise iterate over every entry, persist the
batch, and enter the paused/outage mode if a network error was seen. -/
def pollAll (st : PollAllState) (jobs : List (String × MJRecord))
    (resume : Option String) (server : String → StatusOutcome) : TickResult :=
  if st.busy || st.paused then
    { jobs := jobs, resume := resume, fetched := [], sawNetworkError := false, state := st }
  else if jobs.isEmpty then
    { jobs := jobs, resume := resume, fetched := [], sawNetworkError := false, state := st }
  else
    let r := pollAllEntries server jobs jobs resume [] false
    if r.2.2.2 then
      { jobs := r.1, resume := r.2.1, fetched := r.2.2.1, sawNetworkError := true
        state := { busy := false, paused := true
                   networkFailCount := st.networkFailCount + 1 } }
    else
      { jobs := r.1, resume := r.2.1, fetched := r.2.2.1, sawNetworkError := false
        state := { busy := false, paused := false, networkFailCount := 0 } }

/-! ## Job Collection initialisation (`useMultiUpload`'s `useState` seed)

`JSON.parse(localStorage.getItem(STORAGE_KEY)) || {}` inside `try/catch`. -/

/-- A JSON value as produced by `JSON.parse`. -/
inductive JsVal where
  | null
  | bool (b : Bool)
  | num (q : ℚ)
  | str (s : String)
  | arr (elems : List JsVal)
  | obj (fields : List (String × JsVal))

/-- JS truthiness of a parsed JSON value. -/
def truthy : JsVal → Bool
  | .null => false
  | .bool b => b
  | .num q => q ≠ 0
  | .str s => s ≠ ""
  | .arr _ => true
  | .obj _ => true

/-- `JSON.parse(localStorage.getItem(STORAGE_KEY))` as a total function:
`getItem` yields `none` when the key is absent, in which case `JSON.parse`
receives `null`, coerces it to the string `"null"` and successfully parses it
to the JSON value `null`; a stored string goes through the parser, whose
failure (exception) is the `none` outcome. -/
def readStoredJobs (stored : Option String) (parse : String → Option JsVal) :
    Option JsVal :=
  match stored with
  | none => some .null
  | some s => parse s

/-- The `useState` initializer of `useMultiUpload`: the parse result if it is
truthy, `{}` if it is falsy, and `{}` when the parse threw (the `catch`). -/
def initJobs (stored : Option String) (parse : String → Option JsVal) : JsVal :=
  match readStoredJobs stored parse with
  | none => .obj []
  | some v => if truthy v then v else .obj []

/-! ## Concrete states used by witnesses and counterexamples -/

/-- The stream state reached after the chunks `"Dia"` and `"betes"`. -/
def diabetesState : StreamState :=
  { accumulated := "Diabetes", answer := "Diabetes", sources := [], finished := false }

/-- A stream state whose accumulated buffer is `"abc"`. -/
def abcState : StreamState :=
  { accumulated := "abc", answer := "abc", sources := [], finished := false }

/-- A mid-processing Job Collection record. -/
def processingRec : MJRecord :=
  { fileName := "a.pdf", size_bytes := 10, progress := 40,
    detail := "chunking", status := "processing" }

/-- A completed Job Collection record. -/
def completedRec : MJRecord :=
  { fileName := "report.pdf", size_bytes := 100, progress := 100,
    detail := "done", status := "completed" }

/-- A paused loop state with some accumulated failures. -/
def pausedState : PollAllState :=
  { busy := false, paused := true, networkFailCount := 3 }

/-- A status response that flips a job to `error`. -/
def errorResp : StatusResp :=
  { status := some "error", detail := some "crashed" }

/-- A witness JSON parser: throws on `"bad"`, else a one-job object. -/
def demoParse (s : String) : Option JsVal :=
  if s = "bad" then none else some (.obj [("j1", .str "ok")])

/-! ## Theorems -/

/-- C3: in a live stream session, a `partial` event whose text chunk is
already a suffix of the accumulated answer buffer leaves the session state
unchanged (the chunk is not appended again), whatever events follow; in
particular the event sequence `partial "Dia"`, `partial "betes"`,
`partial "betes"` assembles the answer `"Diabetes"`, not `"Diabetesbetes"`. -/
theorem ask_duplicate_suffix_chunk (st : StreamState) (c : String)
    (es : List StreamEvent) (hfin : st.finished = false)
    (hsuf : jsEndsWith st.accumulated c = true) :
    runStream st (StreamEvent.chunk (some c) :: es) = runStream st es ∧
    (runStream (initStream "") [StreamEvent.chunk (some "Dia"),
        StreamEvent.chunk (some "betes"), StreamEvent.chunk (some "betes")]).answer
      = "Diabetes" := by
  constructor
  · have happ : applyEvent st (StreamEvent.chunk (some c)) = st := by
      simp [applyEvent, hsuf]
    cases es with
    | nil => simp [runStream, hfin, happ]
    | cons e es => simp [runStream, hfin, happ]
  · decide

/-- Witness for C3 at the state reached after `"Dia"` and `"betes"`:
a redelivered `"betes"` chunk is a no-op. -/
theorem ask_duplicate_suffix_chunk_witness :
    runStream diabetesState [StreamEvent.chunk (some "betes")]
      = runStream diabetesState [] ∧
    (runStream (initStream "") [StreamEvent.chunk (some "Dia"),
        StreamEvent.chunk (some "betes"), StreamEvent.chunk (some "betes")]).answer
      = "Diabetes" :=
  ask_duplicate_suffix_chunk diabetesState "betes" [] (by decide) (by decide)

/-- C5, counterexample: a `done` event carrying the text `" hi "` finalizes
the answer to the trimmed string `"hi"`, not to the event's own text
(`finalText = obj.text?.trim() || accumulated` trims first), so the final
answer does not equal the `done` text exactly. -/
theorem ask_done_text_not_exact :
    (runStream (initStream "") [StreamEvent.chunk (some "abc"),
        StreamEvent.done (some " hi ") none]).answer = "hi" ∧
    "hi" ≠ " hi " := by
  constructor
  · decide
  · decide

/-- C5, amended: a `done` event finalizes the answer to the *trimmed* event
text when that trim is nonempty (overriding the accumulated buffer even when
the two differ); when the event carries no text, or its text trims to the
empty string, the final answer is the accumulated buffer. -/
theorem ask_done_finalize (st : StreamState) (t : String)
    (srcs : Option (List String)) (hfin : st.finished = false) :
    (runStream st [StreamEvent.done (some t) srcs]).answer
      = (if jsTrim t ≠ "" then jsTrim t else st.accumulated) ∧
    (runStream st [StreamEvent.done none srcs]).answer = st.accumulated := by
  constructor
  · simp [runStream, applyEvent, hfin]
  · simp [runStream, applyEvent, hfin]

/-- Witness for C5 (amended) with buffer `"abc"`: done-text `" hi "` yields
`"hi"`; a text-less done yields `"abc"`. -/
theorem ask_done_finalize_witness :
    (runStream abcState [StreamEvent.done (some " hi ") none]).answer
      = (if jsTrim " hi " ≠ "" then jsTrim " hi " else abcState.accumulated) ∧
    (runStream abcState [StreamEvent.done none none]).answer = abcState.accumulated :=
  ask_done_finalize abcState " hi " none (by decide)

/-- C4, counterexample: with the routine parameters `base = 300`,
`cap = 5000`, at attempt 5 the envelope is exactly `cap`, and the jitter draw
`Math.random() = 0.9` (a legal outcome, `0 ≤ 0.9 < 1`) yields
`delay = 5800 > cap`: the jitter is applied after clamping, so the returned
delay can exceed `cap` by up to 20 %. -/
theorem defaultBackoff_can_exceed_cap :
    5000 < defaultBackoff 5 300 5000 (9 / 10) ∧
    (0 : ℚ) ≤ 9 / 10 ∧ (9 / 10 : ℚ) < 1 := by
  refine ⟨?_, by norm_num, by norm_num⟩
  norm_num [defaultBackoff, preJitterDelay, jsRound]

/-- C4, amended: for `0 ≤ base`, `0 ≤ cap` and any jitter draw
`0 ≤ rand < 1`, the pre-jitter envelope `min(cap, round(base·1.8^a))` is
non-decreasing in the attempt and clamped to `cap`; the post-jitter delay is
only bounded by `max(50, 6/5·cap + 1/2)` — it may exceed `cap` by up to 20 %
of `cap` (plus rounding), and is floored at 50 ms. -/
theorem defaultBackoff_envelope (base cap rand : ℚ) (a1 a2 : ℕ)
    (hbase : 0 ≤ base) (hcap : 0 ≤ cap) (hr0 : 0 ≤ rand) (hr1 : rand < 1)
    (ha : a1 ≤ a2) :
    preJitterDelay a1 base cap ≤ preJitterDelay a2 base cap ∧
    preJitterDelay a1 base cap ≤ cap ∧
    defaultBackoff a1 base cap rand ≤ max 50 (6 / 5 * cap + 1 / 2) := by
  have hpow : (0 : ℚ) ≤ (9 / 5) ^ a1 := pow_nonneg (by norm_num) a1
  have hcast : ∀ a : ℕ, (0 : ℚ) ≤ ((jsRound (base * (9 / 5) ^ a) : ℤ) : ℚ) := by
    intro a
    have hx : (0 : ℚ) ≤ base * (9 / 5) ^ a + 1 / 2 := by
      have := mul_nonneg hbase (pow_nonneg (by norm_num : (0:ℚ) ≤ 9 / 5) a)
      linarith
    have : (0 : ℤ) ≤ jsRound (base * (9 / 5) ^ a) := by
      rw [jsRound]
      exact Int.le_floor.mpr (by exact_mod_cast hx)
    exact_mod_cast this
  have henv_nonneg : 0 ≤ preJitterDelay a1 base cap := by
    rw [preJitterDelay]
    exact le_min hcap (hcast a1)
  have henv_le_cap : preJitterDelay a1 base cap ≤ cap := min_le_left _ _
  refine ⟨?_, henv_le_cap, ?_⟩
  · rw [preJitterDelay, preJitterDelay]
    refine min_le_min le_rfl ?_
    have h1 : base * (9 / 5) ^ a1 ≤ base * (9 / 5) ^ a2 :=
      mul_le_mul_of_nonneg_left
        (pow_le_pow_right₀ (by norm_num : (1 : ℚ) ≤ 9 / 5) ha) hbase
    have h2 : jsRound (base * (9 / 5) ^ a1) ≤ jsRound (base * (9 / 5) ^ a2) := by
      rw [jsRound, jsRound]
      exact Int.floor_le_floor (by linarith)
    exact_mod_cast h2
  · rw [defaultBackoff]
    set e := preJitterDelay a1 base cap with he
    have hj : rand * (2 / 5) - 1 / 5 < 1 / 5 := by linarith
    have hje : (rand * (2 / 5) - 1 / 5) * e ≤ 1 / 5 * e := by
      have := mul_nonneg (by linarith : (0:ℚ) ≤ 1 / 5 - (rand * (2 / 5) - 1 / 5)) henv_nonneg
      nlinarith
    have hsum : e + (rand * (2 / 5) - 1 / 5) * e ≤ 6 / 5 * cap := by
      have h65 : (6 : ℚ) / 5 * e ≤ 6 / 5 * cap :=
        mul_le_mul_of_nonneg_left henv_le_cap (by norm_num)
      nlinarith
    have hfl : ((jsRound (e + (rand * (2 / 5) - 1 / 5) * e) : ℤ) : ℚ)
        ≤ e + (rand * (2 / 5) - 1 / 5) * e + 1 / 2 := by
      rw [jsRound]
      have := Int.floor_le (e + (rand * (2 / 5) - 1 / 5) * e + 1 / 2)
      linarith
    exact max_le_max le_rfl (by linarith)

/-- Witness for C4 (amended) at `base = 300`, `cap = 5000`, `rand = 0`,
attempts `0 ≤ 1`. -/
theorem defaultBackoff_envelope_witness :
    preJitterDelay 0 300 5000 ≤ preJitterDelay 1 300 5000 ∧
    preJitterDelay 0 300 5000 ≤ 5000 ∧
    defaultBackoff 0 300 5000 0 ≤ max 50 (6 / 5 * 5000 + 1 / 2) :=
  defaultBackoff_envelope 300 5000 0 0 1 (by norm_num) (by norm_num) (by norm_num)
    (by norm_num) (by omega)

/-- C7: a `pollAll` tick that starts while the pause flag is set returns
immediately — it issues no job-status request (`fetched = []`) and changes
neither the Job Collection, the Resume Pointer, nor the loop state; this is
the mutual-exclusion guarantee between the shared loop and the outage
probing. -/
theorem pollAll_paused_skips (st : PollAllState) (jobs : List (String × MJRecord))
    (resume : Option String) (server : String → StatusOutcome)
    (hp : st.paused = true) :
    (pollAll st jobs resume server).fetched = [] ∧
    (pollAll st jobs resume server).jobs = jobs ∧
    (pollAll st jobs resume server).resume = resume ∧
    (pollAll st jobs resume server).state = st := by
  simp [pollAll, hp]

/-- Witness for C7: a paused tick over a one-job collection fetches
nothing and leaves everything in place. -/
theorem pollAll_paused_skips_witness :
    (pollAll pausedState [("J", processingRec)] (some "J")
        (fun _ => StatusOutcome.ok {})).fetched = [] ∧
    (pollAll pausedState [("J", processingRec)] (some "J")
        (fun _ => StatusOutcome.ok {})).jobs = [("J", processingRec)] ∧
    (pollAll pausedState [("J", processingRec)] (some "J")
        (fun _ => StatusOutcome.ok {})).resume = some "J" ∧
    (pollAll pausedState [("J", processingRec)] (some "J")
        (fun _ => StatusOutcome.ok {})).state = pausedState :=
  pollAll_paused_skips pausedState [("J", processingRec)] (some "J")
    (fun _ => StatusOutcome.ok {}) (by decide)

/-- C8: the `useState` initializer of `useMultiUpload` is a total function of
the persisted string (the `try/catch` absorbs the parse exception): when the
stored string parses to a JSON object it yields exactly that object, when the
parse throws it yields the empty collection, and when the key is absent
(`JSON.parse(null)` parses to the falsy JSON `null`) it also yields the empty
collection. -/
theorem useMultiUpload_init_total (stored : Option String)
    (parse : String → Option JsVal) :
    (∀ fields, readStoredJobs stored parse = some (.obj fields) →
        initJobs stored parse = .obj fields) ∧
    (readStoredJobs stored parse = none → initJobs stored parse = .obj []) ∧
    (stored = none → initJobs stored parse = .obj []) := by
  refine ⟨?_, ?_, ?_⟩
  · intro fields h
    simp [initJobs, h, truthy]
  · intro h
    simp [initJobs, h]
  · intro h
    subst h
    simp [initJobs, readStoredJobs, truthy]

/-- Witness for C8: a parser that succeeds on `"good"` with a one-job object
and throws on `"bad"`. -/
theorem useMultiUpload_init_total_witness :
    initJobs (some "good") demoParse = .obj [("j1", .str "ok")] ∧
    initJobs (some "bad") demoParse = .obj [] ∧
    initJobs none demoParse = .obj [] :=
  ⟨(useMultiUpload_init_total (some "good") demoParse).1 [("j1", .str "ok")]
      (by simp [readStoredJobs, demoParse]),
   (useMultiUpload_init_total (some "bad") demoParse).2.1
      (by simp [readStoredJobs, demoParse]),
   (useMultiUpload_init_total none demoParse).2.2 rfl⟩

/-- C1: one `pollAll` tick over a collection holding a single job `"J"`
already in the terminal state `"completed"` still issues a status request for
`"J"` (the loop iterates over every entry, with no terminal filter), and the
server's response overwrites the terminal record — here to
`status = "error"`, `detail = "crashed"`. The code neither restricts fetching
to non-terminal jobs nor ignores updates after a terminal state. -/
theorem pollAll_mutates_terminal_job :
    (pollAll { busy := false, paused := false, networkFailCount := 0 }
        [("J", completedRec)] none (fun _ => StatusOutcome.ok errorResp)).fetched
      = ["J"] ∧
    (pollAll { busy := false, paused := false, networkFailCount := 0 }
        [("J", completedRec)] none (fun _ => StatusOutcome.ok errorResp)).jobs
      = [("J", { completedRec with detail := "crashed", status := "error" })] ∧
    isTerminal completedRec.status = true := by
  refine ⟨by decide, by decide, by decide⟩

/-- C6, counterexample: polling job `"J"` to its terminal `"completed"` state
removes the Resume Pointer even though it currently points at the different
job id `"K"` (`pollUploadStatus` calls
`localStorage.removeItem("last_upload_job_id")` without comparing the stored
id to its own job id). -/
theorem pollUploadStatus_clears_foreign_resume :
    (pollUploadStatus "J" (fun _ => .found { status := "completed", progress := 100 })
        5 6 (some "K")).resume = none ∧
    (some "K" : Option String) ≠ some "J" ∧
    (pollUploadStatus "J" (fun _ => .found { status := "completed", progress := 100 })
        5 6 (some "K")).result = some { status := "completed", progress := 100 } := by
  refine ⟨by decide, by decide, by decide⟩

lemma count404_pos (fetch : ℕ → FetchOutcome) :
    ∀ (n start j : ℕ), j < n → fetch (start + j) = .notFound →
      0 < count404 fetch start n := by
  intro n
  induction n with
  | zero => intro start j hj _; omega
  | succ n ih =>
      intro start j hj hf
      rw [count404]
      rcases j with _ | j
      · rw [Nat.add_zero] at hf
        rw [if_pos hf]
        omega
      · have h := ih (start + 1) j (by omega)
          (by rw [show start + 1 + j = start + (j + 1) by omega]; exact hf)
        split <;> omega

lemma count404_all (fetch : ℕ → FetchOutcome) :
    ∀ (n start : ℕ), (∀ i, i < n → fetch (start + i) = .notFound) →
      count404 fetch start n = n := by
  intro n
  induction n with
  | zero => intro start _; rfl
  | succ n ih =>
      intro start hall
      rw [count404]
      have h0 := hall 0 (by omega)
      rw [Nat.add_zero] at h0
      rw [if_pos h0, ih (start + 1) (fun i hi => by
        have h := hall (i + 1) (by omega)
        rwa [show start + (i + 1) = start + 1 + i by omega] at h)]
      omega

lemma pollGoAux_notFound_run (fetch : ℕ → FetchOutcome) (allow404Retries : ℕ) :
    ∀ (m fuel attempt notFoundCount : ℕ) (last : Option UploadJob)
      (resume : Option String) (updates : List (Option UploadJob)),
      0 < m → m ≤ fuel →
      (∀ i, i < m →
        fetch (attempt + i) = .notFound ∨ fetch (attempt + i) = .transportError) →
      notFoundCount + count404 fetch attempt m = allow404Retries + 1 →
      fetch (attempt + (m - 1)) = .notFound →
      pollGoAux fetch defaultStopWhen allow404Retries fuel attempt notFoundCount last
          resume updates
        = { result := none, resume := resume,
            updates := updates ++ updateTrace fetch attempt m,
            attemptsUsed := attempt + m } := by
  intro m
  induction m with
  | zero => intro fuel attempt nf last resume updates h; omega
  | succ m ih =>
      intro fuel attempt nf last resume updates _ hle hmix hcount hlast
      obtain ⟨fuel, rfl⟩ : ∃ f, fuel = f + 1 := ⟨fuel - 1, by omega⟩
      have h0 := hmix 0 (by omega)
      rw [Nat.add_zero] at h0
      rw [count404] at hcount
      rcases h0 with h0 | h0
      · rw [if_pos h0] at hcount
        by_cases hth : allow404Retries < nf + 1
        · have hm0 : m = 0 := by
            by_contra hm
            have hc : 0 < count404 fetch (attempt + 1) m := by
              apply count404_pos fetch m (attempt + 1) (m - 1) (by omega)
              rw [show attempt + 1 + (m - 1) = attempt + (m + 1 - 1) by omega]
              exact hlast
            omega
          subst hm0
          rw [pollGoAux, h0]
          simp only [defaultStopWhen, Bool.false_eq_true, if_false, updateTrace, h0]
          rw [if_pos hth]
          simp
        · have hmpos : 0 < m := by
            by_contra hm
            have hm0 : m = 0 := by omega
            subst hm0
            simp [count404] at hcount
            omega
          have hrec := ih fuel (attempt + 1) (nf + 1) none resume (updates ++ [none])
            hmpos (by omega)
            (fun i hi => by
              have h := hmix (i + 1) (by omega)
              rwa [show attempt + (i + 1) = attempt + 1 + i by omega] at h)
            (by omega)
            (by rw [show attempt + 1 + (m - 1) = attempt + (m + 1 - 1) by omega]
                exact hlast)
          rw [pollGoAux, h0]
          simp only [defaultStopWhen, Bool.false_eq_true, if_false]
          rw [if_neg (by omega : ¬ allow404Retries < nf + 1), hrec]
          simp only [updateTrace, h0, PollResult.mk.injEq, List.append_assoc,
            List.singleton_append, true_and]
          omega
      · have hmpos : 0 < m := by
          by_contra hm
          have hm0 : m = 0 := by omega
          subst hm0
          rw [Nat.add_zero] at hlast
          rw [hlast] at h0
          exact absurd h0 (by simp)
        rw [if_neg (by simp [h0])] at hcount
        have hrec := ih fuel (attempt + 1) nf last resume updates hmpos (by omega)
          (fun i hi => by
            have h := hmix (i + 1) (by omega)
            rwa [show attempt + (i + 1) = attempt + 1 + i by omega] at h)
          (by omega)
          (by rw [show attempt + 1 + (m - 1) = attempt + (m + 1 - 1) by omega]
              exact hlast)
        rw [pollGoAux, h0, hrec]
        simp only [updateTrace, h0, PollResult.mk.injEq, List.nil_append, true_and]
        omega

/-- C2: with the default stop predicate, if every attempt up to index
`allow404Retries` yields a 404 (so the poller sees `allow404Retries + 1`
consecutive not-found responses) and the attempt budget admits them
(`maxAttempts ≥ allow404Retries + 1`), `pollUploadStatus` returns the absent
result `null` and stops after exactly `allow404Retries + 1` attempts. The
embedding is a total function — every fetch outcome, including the thrown
error, is handled, so the poller never throws. -/
theorem pollUploadStatus_notFound_tolerance (jobId : String)
    (fetch : ℕ → FetchOutcome) (maxAttempts allow404Retries : ℕ)
    (resume0 : Option String) (hmax : allow404Retries + 1 ≤ maxAttempts)
    (h404 : ∀ a, a ≤ allow404Retries → fetch a = .notFound) :
    (pollUploadStatus jobId fetch maxAttempts allow404Retries resume0).result = none ∧
    (pollUploadStatus jobId fetch maxAttempts allow404Retries resume0).attemptsUsed
      = allow404Retries + 1 := by
  have hall : ∀ i, i < allow404Retries + 1 → fetch (0 + i) = .notFound := by
    intro i hi
    rw [Nat.zero_add]
    exact h404 i (by omega)
  have hrun := pollGoAux_notFound_run fetch allow404Retries (allow404Retries + 1)
    maxAttempts 0 0 none resume0 [] (by omega) hmax
    (fun i hi => Or.inl (hall i hi))
    (by rw [count404_all fetch (allow404Retries + 1) 0 hall]; omega)
    (hall (allow404Retries + 1 - 1) (by omega))
  rw [pollUploadStatus]
  rw [hrun]
  simp

/-- Witness for C2: three consecutive 404s with `allow404Retries = 2`,
`maxAttempts = 10` return `null` after exactly 3 attempts. -/
theorem pollUploadStatus_notFound_tolerance_witness :
    (pollUploadStatus "job-1" (fun _ => .notFound) 10 2 (some "job-1")).result
      = none ∧
    (pollUploadStatus "job-1" (fun _ => .notFound) 10 2 (some "job-1")).attemptsUsed
      = 2 + 1 :=
  pollUploadStatus_notFound_tolerance "job-1" (fun _ => .notFound) 10 2
    (some "job-1") (by omega) (fun a _ => rfl)

/-- C10: a transport or server error during an attempt is absorbed by the
`catch`: it leaves the not-found counter unchanged (neither incremented nor
reset) while still consuming one of the `maxAttempts`. Consequently a run of
attempts containing only 404s and transient errors, whose 404s number
`allow404Retries + 1` and whose last attempt is a 404, still trips the
not-found tolerance: the poller returns the absent result after exactly those
`n` attempts — the interleaved errors neither broke the "consecutive" count
nor were free. -/
theorem pollUploadStatus_transient_error_frame (jobId : String)
    (fetch : ℕ → FetchOutcome) (maxAttempts allow404Retries n : ℕ)
    (resume0 : Option String) (hn : 0 < n) (hnmax : n ≤ maxAttempts)
    (herr : ∃ i, i < n ∧ fetch i = .transportError)
    (hmix : ∀ i, i < n → fetch i = .notFound ∨ fetch i = .transportError)
    (hcount : count404 fetch 0 n = allow404Retries + 1)
    (hlast : fetch (n - 1) = .notFound) :
    (pollUploadStatus jobId fetch maxAttempts allow404Retries resume0).result = none ∧
    (pollUploadStatus jobId fetch maxAttempts allow404Retries resume0).attemptsUsed
      = n := by
  have hrun := pollGoAux_notFound_run fetch allow404Retries n maxAttempts 0 0 none
    resume0 [] hn hnmax
    (fun i hi => by rw [Nat.zero_add]; exact hmix i hi)
    (by rw [Nat.zero_add, hcount])
    (by rw [Nat.zero_add]; exact hlast)
  rw [pollUploadStatus]
  rw [hrun]
  simp

/-- Witness for C10: attempts 404, error, 404, 404 with
`allow404Retries = 2` return `null` after exactly 4 attempts — the error at
attempt 1 did not reset the not-found count and consumed an attempt. -/
theorem pollUploadStatus_transient_error_frame_witness :
    (pollUploadStatus "job-1"
        (fun k => if k = 1 then .transportError else .notFound) 10 2 none).result
      = none ∧
    (pollUploadStatus "job-1"
        (fun k => if k = 1 then .transportError else .notFound) 10 2 none).attemptsUsed
      = 4 :=
  pollUploadStatus_transient_error_frame "job-1"
    (fun k => if k = 1 then .transportError else .notFound) 10 2 4 none
    (by omega) (by omega) ⟨1, by omega, rfl⟩
    (by intro i hi; interval_cases i <;> simp)
    (by decide) (by decide)

lemma pollGoAux_attemptsUsed_le (fetch : ℕ → FetchOutcome)
    (stopWhen : Option UploadJob → Bool) (allow404Retries : ℕ) :
    ∀ (fuel attempt nf : ℕ) (last : Option UploadJob) (resume : Option String)
      (updates : List (Option UploadJob)),
      attempt ≤ (pollGoAux fetch stopWhen allow404Retries fuel attempt nf last resume
        updates).attemptsUsed := by
  intro fuel
  induction fuel with
  | zero => intro attempt nf last resume updates; simp [pollGoAux]
  | succ fuel ih =>
      intro attempt nf last resume updates
      rw [pollGoAux]
      cases hf : fetch attempt with
      | transportError =>
          exact le_trans (by omega) (ih (attempt + 1) nf last resume updates)
      | notFound =>
          dsimp only
          split
          · simp
          · split
            · simp
            · exact le_trans (by omega) (ih (attempt + 1) (nf + 1) none resume _)
      | found job =>
          dsimp only
          split
          · simp
          · exact le_trans (by omega) (ih (attempt + 1) 0 (some job) resume _)

lemma pollGoAux_updates_eq (fetch : ℕ → FetchOutcome)
    (stopWhen : Option UploadJob → Bool) (allow404Retries : ℕ) :
    ∀ (fuel attempt nf : ℕ) (last : Option UploadJob) (resume : Option String)
      (updates : List (Option UploadJob)),
      (pollGoAux fetch stopWhen allow404Retries fuel attempt nf last resume
          updates).updates
        = updates ++ updateTrace fetch attempt
            ((pollGoAux fetch stopWhen allow404Retries fuel attempt nf last resume
                updates).attemptsUsed - attempt) := by
  intro fuel
  induction fuel with
  | zero =>
      intro attempt nf last resume updates
      simp [pollGoAux, updateTrace]
  | succ fuel ih =>
      intro attempt nf last resume updates
      rw [pollGoAux]
      cases hf : fetch attempt with
      | transportError =>
          dsimp only
          have hle := pollGoAux_attemptsUsed_le fetch stopWhen allow404Retries fuel
            (attempt + 1) nf last resume updates
          rw [ih (attempt + 1) nf last resume updates]
          rw [show (pollGoAux fetch stopWhen allow404Retries fuel (attempt + 1) nf last
              resume updates).attemptsUsed - attempt
            = ((pollGoAux fetch stopWhen allow404Retries fuel (attempt + 1) nf last
                resume updates).attemptsUsed - (attempt + 1)) + 1 by omega]
          rw [updateTrace, hf]
          simp
      | notFound =>
          dsimp only
          split
          · simp [updateTrace, hf]
          · split
            · simp [updateTrace, hf]
            · have hle := pollGoAux_attemptsUsed_le fetch stopWhen allow404Retries fuel
                (attempt + 1) (nf + 1) none resume (updates ++ [none])
              rw [ih (attempt + 1) (nf + 1) none resume (updates ++ [none])]
              rw [show (pollGoAux fetch stopWhen allow404Retries fuel (attempt + 1)
                  (nf + 1) none resume (updates ++ [none])).attemptsUsed - attempt
                = ((pollGoAux fetch stopWhen allow404Retries fuel (attempt + 1) (nf + 1)
                    none resume (updates ++ [none])).attemptsUsed - (attempt + 1)) + 1
                by omega]
              rw [updateTrace, hf]
              simp
      | found job =>
          dsimp only
          split
          · simp [updateTrace, hf]
          · have hle := pollGoAux_attemptsUsed_le fetch stopWhen allow404Retries fuel
              (attempt + 1) 0 (some job) resume (updates ++ [some job])
            rw [ih (attempt + 1) 0 (some job) resume (updates ++ [some job])]
            rw [show (pollGoAux fetch stopWhen allow404Retries fuel (attempt + 1) 0
                (some job) resume (updates ++ [some job])).attemptsUsed - attempt
              = ((pollGoAux fetch stopWhen allow404Retries fuel (attempt + 1) 0
                  (some job) resume (updates ++ [some job])).attemptsUsed
                  - (attempt + 1)) + 1 by omega]
            rw [updateTrace, hf]
            simp

lemma none_mem_updateTrace (fetch : ℕ → FetchOutcome) :
    ∀ (n start a : ℕ), a < n → fetch (start + a) = .notFound →
      none ∈ updateTrace fetch start n := by
  intro n
  induction n with
  | zero => intro start a ha _; omega
  | succ n ih =>
      intro start a ha hf
      rw [updateTrace]
      rcases a with _ | a
      · rw [Nat.add_zero] at hf
        rw [hf]
        simp
      · have h := ih (start + 1) a (by omega)
          (by rw [show start + 1 + a = start + (a + 1) by omega]; exact hf)
        simp [h]

/-- C9: the `onUpdate` trace of `pollUploadStatus` consists of exactly the
server responses of the attempts that ran, in order — every attempt with a
response contributes its value, and a 404 contributes `null` (`onUpdate(job)`
runs on the line before `stopWhen(job)` is evaluated, so even the stopping
attempt's value is in the trace). In particular any 404 among the attempts
that ran put a `null` in the trace. -/
theorem pollUploadStatus_onUpdate_trace (jobId : String)
    (fetch : ℕ → FetchOutcome) (maxAttempts allow404Retries : ℕ)
    (resume0 : Option String) :
    (pollUploadStatus jobId fetch maxAttempts allow404Retries resume0).updates
      = updateTrace fetch 0
          (pollUploadStatus jobId fetch maxAttempts allow404Retries resume0).attemptsUsed ∧
    (∀ a, a < (pollUploadStatus jobId fetch maxAttempts allow404Retries
          resume0).attemptsUsed →
      fetch a = .notFound →
      none ∈ (pollUploadStatus jobId fetch maxAttempts allow404Retries
        resume0).updates) := by
  have heq := pollGoAux_updates_eq fetch defaultStopWhen allow404Retries maxAttempts
    0 0 none resume0 []
  rw [Nat.sub_zero, List.nil_append] at heq
  rw [pollUploadStatus]
  refine ⟨heq, ?_⟩
  intro a ha hf
  rw [heq]
  exact none_mem_updateTrace fetch _ 0 a ha (by rw [Nat.zero_add]; exact hf)

/-- Witness for C9: a 404 followed by a terminal response; the trace is
`[null, job]` — the 404 produced a `null` update and the stopping response is
also in the trace. -/
theorem pollUploadStatus_onUpdate_trace_witness :
    (pollUploadStatus "J"
        (fun k => if k = 0 then .notFound
          else .found { status := "completed", progress := 100 }) 5 6 none).updates
      = updateTrace
          (fun k => if k = 0 then .notFound
            else .found { status := "completed", progress := 100 }) 0
          (pollUploadStatus "J"
            (fun k => if k = 0 then .notFound
              else .found { status := "completed", progress := 100 }) 5 6
            none).attemptsUsed ∧
    none ∈ (pollUploadStatus "J"
        (fun k => if k = 0 then .notFound
          else .found { status := "completed", progress := 100 }) 5 6 none).updates :=
  ⟨(pollUploadStatus_onUpdate_trace "J"
      (fun k => if k = 0 then .notFound
        else .found { status := "completed", progress := 100 }) 5 6 none).1,
   (pollUploadStatus_onUpdate_trace "J"
      (fun k => if k = 0 then .notFound
        else .found { status := "completed", progress := 100 }) 5 6 none).2 0
      (by decide) (by decide)⟩

lemma pollGoAux_resume_eq (fetch : ℕ → FetchOutcome) (allow404Retries : ℕ) :
    ∀ (fuel attempt nf : ℕ) (last : Option UploadJob) (resume : Option String)
      (updates : List (Option UploadJob)),
      (∀ job, last = some job → isTerminal job.status = false) →
      (pollGoAux fetch defaultStopWhen allow404Retries fuel attempt nf last resume
          updates).resume
        = (match (pollGoAux fetch defaultStopWhen allow404Retries fuel attempt nf last
              resume updates).result with
            | some job => if isTerminal job.status then none else resume
            | none => resume) := by
  intro fuel
  induction fuel with
  | zero =>
      intro attempt nf last resume updates hinv
      rw [pollGoAux]
      cases last with
      | none => rfl
      | some job => simp [hinv job rfl]
  | succ fuel ih =>
      intro attempt nf last resume updates hinv
      rw [pollGoAux]
      cases hf : fetch attempt with
      | transportError => exact ih (attempt + 1) nf last resume updates hinv
      | notFound =>
          dsimp only
          split
          · rfl
          · split
            · rfl
            · exact ih (attempt + 1) (nf + 1) none resume _ (fun job h => nomatch h)
      | found job =>
          dsimp only
          split
          · rfl
          · rename_i hstop
            refine ih (attempt + 1) 0 (some job) resume _ ?_
            intro job' hj
            cases hj
            simpa [defaultStopWhen] using hstop

/-- C6, amended: with the default stop predicate, `pollUploadStatus` clears
the persisted Resume Pointer unconditionally whenever it returns on an
observed terminal state — regardless of whether the pointer held this job's
id or a different one — and leaves the pointer untouched in every other case
(404 tolerance exceeded, or attempt budget exhausted without a terminal
state). -/
theorem pollUploadStatus_resume_pointer (jobId : String)
    (fetch : ℕ → FetchOutcome) (maxAttempts allow404Retries : ℕ)
    (resume0 : Option String) :
    (pollUploadStatus jobId fetch maxAttempts allow404Retries resume0).resume
      = (match (pollUploadStatus jobId fetch maxAttempts allow404Retries
            resume0).result with
          | some job => if isTerminal job.status then none else resume0
          | none => resume0) := by
  rw [pollUploadStatus]
  exact pollGoAux_resume_eq fetch allow404Retries maxAttempts 0 0 none resume0 []
    (fun job h => nomatch h)

end MedChat
